import Mathlib

/-!
# Opcode pricing of the fee package

A shallow embedding of `pkg/core/fee/opcode.go`: the coefficient table `coefficients`
and the function `Opcode`, which prices a sequence of opcodes against a base price in
signed 64-bit arithmetic.
-/

namespace opcode

/-- Modelled from the spec: the package `pkg/vm/opcode`, which declares the type
`opcode.Opcode` and its constants, is not part of the sources at hand. These are the
names of the 187 constants that occur as keys of the map literal `coefficients`, in the
order of the literal. -/
inductive Name where
  | PUSHINT8 | PUSHINT16 | PUSHINT32 | PUSHINT64 | PUSHINT128 | PUSHINT256 | PUSHA | PUSHNULL
  | PUSHDATA1 | PUSHDATA2 | PUSHDATA4 | PUSHM1 | PUSH0 | PUSH1 | PUSH2 | PUSH3 | PUSH4 | PUSH5
  | PUSH6 | PUSH7 | PUSH8 | PUSH9 | PUSH10 | PUSH11 | PUSH12 | PUSH13 | PUSH14 | PUSH15
  | PUSH16 | NOP | JMP | JMPL | JMPIF | JMPIFL | JMPIFNOT | JMPIFNOTL | JMPEQ | JMPEQL | JMPNE
  | JMPNEL | JMPGT | JMPGTL | JMPGE | JMPGEL | JMPLT | JMPLTL | JMPLE | JMPLEL | CALL | CALLL
  | CALLA | ABORT | ASSERT | THROW | TRY | TRYL | ENDTRY | ENDTRYL | ENDFINALLY | RET | SYSCALL
  | DEPTH | DROP | NIP | XDROP | CLEAR | DUP | OVER | PICK | TUCK | SWAP | ROT | ROLL
  | REVERSE3 | REVERSE4 | REVERSEN | INITSSLOT | INITSLOT | LDSFLD0 | LDSFLD1 | LDSFLD2
  | LDSFLD3 | LDSFLD4 | LDSFLD5 | LDSFLD6 | LDSFLD | STSFLD0 | STSFLD1 | STSFLD2 | STSFLD3
  | STSFLD4 | STSFLD5 | STSFLD6 | STSFLD | LDLOC0 | LDLOC1 | LDLOC2 | LDLOC3 | LDLOC4 | LDLOC5
  | LDLOC6 | LDLOC | STLOC0 | STLOC1 | STLOC2 | STLOC3 | STLOC4 | STLOC5 | STLOC6 | STLOC
  | LDARG0 | LDARG1 | LDARG2 | LDARG3 | LDARG4 | LDARG5 | LDARG6 | LDARG | STARG0 | STARG1
  | STARG2 | STARG3 | STARG4 | STARG5 | STARG6 | STARG | NEWBUFFER | MEMCPY | CAT | SUBSTR
  | LEFT | RIGHT | INVERT | AND | OR | XOR | EQUAL | NOTEQUAL | SIGN | ABS | NEGATE | INC | DEC
  | ADD | SUB | MUL | DIV | MOD | POW | SQRT | SHL | SHR | NOT | BOOLAND | BOOLOR | NZ
  | NUMEQUAL | NUMNOTEQUAL | LT | LTE | GT | GTE | MIN | MAX | WITHIN | PACK | UNPACK
  | NEWARRAY0 | NEWARRAY | NEWARRAYT | NEWSTRUCT0 | NEWSTRUCT | NEWMAP | SIZE | HASKEY | KEYS
  | VALUES | PICKITEM | APPEND | SETITEM | REVERSEITEMS | REMOVE | CLEARITEMS | POPITEM
  | ISNULL | ISTYPE | CONVERT
  deriving DecidableEq

/-- Modelled from the spec: the type `opcode.Opcode` of the absent package `pkg/vm/opcode`.
The spec describes an opcode as "an enumerated instruction identifier (one byte)",
"purely a lookup key". Go rejects a map literal with a repeated constant key, so the 187
constants that key `coefficients` denote 187 distinct byte values: these are `named n`.
`unassigned i` stands for the remaining 256 - 187 = 69 byte values, which key no row of
the table. -/
inductive Opcode where
  | named (n : Name)
  | unassigned (i : Fin 69)
  deriving DecidableEq

def PUSHINT8 : Opcode := .named .PUSHINT8
def PUSHINT16 : Opcode := .named .PUSHINT16
def PUSHINT32 : Opcode := .named .PUSHINT32
def PUSHINT64 : Opcode := .named .PUSHINT64
def PUSHINT128 : Opcode := .named .PUSHINT128
def PUSHINT256 : Opcode := .named .PUSHINT256
def PUSHA : Opcode := .named .PUSHA
def PUSHNULL : Opcode := .named .PUSHNULL
def PUSHDATA1 : Opcode := .named .PUSHDATA1
def PUSHDATA2 : Opcode := .named .PUSHDATA2
def PUSHDATA4 : Opcode := .named .PUSHDATA4
def PUSHM1 : Opcode := .named .PUSHM1
def PUSH0 : Opcode := .named .PUSH0
def PUSH1 : Opcode := .named .PUSH1
def PUSH2 : Opcode := .named .PUSH2
def PUSH3 : Opcode := .named .PUSH3
def PUSH4 : Opcode := .named .PUSH4
def PUSH5 : Opcode := .named .PUSH5
def PUSH6 : Opcode := .named .PUSH6
def PUSH7 : Opcode := .named .PUSH7
def PUSH8 : Opcode := .named .PUSH8
def PUSH9 : Opcode := .named .PUSH9
def PUSH10 : Opcode := .named .PUSH10
def PUSH11 : Opcode := .named .PUSH11
def PUSH12 : Opcode := .named .PUSH12
def PUSH13 : Opcode := .named .PUSH13
def PUSH14 : Opcode := .named .PUSH14
def PUSH15 : Opcode := .named .PUSH15
def PUSH16 : Opcode := .named .PUSH16
def NOP : Opcode := .named .NOP
def JMP : Opcode := .named .JMP
def JMPL : Opcode := .named .JMPL
def JMPIF : Opcode := .named .JMPIF
def JMPIFL : Opcode := .named .JMPIFL
def JMPIFNOT : Opcode := .named .JMPIFNOT
def JMPIFNOTL : Opcode := .named .JMPIFNOTL
def JMPEQ : Opcode := .named .JMPEQ
def JMPEQL : Opcode := .named .JMPEQL
def JMPNE : Opcode := .named .JMPNE
def JMPNEL : Opcode := .named .JMPNEL
def JMPGT : Opcode := .named .JMPGT
def JMPGTL : Opcode := .named .JMPGTL
def JMPGE : Opcode := .named .JMPGE
def JMPGEL : Opcode := .named .JMPGEL
def JMPLT : Opcode := .named .JMPLT
def JMPLTL : Opcode := .named .JMPLTL
def JMPLE : Opcode := .named .JMPLE
def JMPLEL : Opcode := .named .JMPLEL
def CALL : Opcode := .named .CALL
def CALLL : Opcode := .named .CALLL
def CALLA : Opcode := .named .CALLA
def ABORT : Opcode := .named .ABORT
def ASSERT : Opcode := .named .ASSERT
def THROW : Opcode := .named .THROW
def TRY : Opcode := .named .TRY
def TRYL : Opcode := .named .TRYL
def ENDTRY : Opcode := .named .ENDTRY
def ENDTRYL : Opcode := .named .ENDTRYL
def ENDFINALLY : Opcode := .named .ENDFINALLY
def RET : Opcode := .named .RET
def SYSCALL : Opcode := .named .SYSCALL
def DEPTH : Opcode := .named .DEPTH
def DROP : Opcode := .named .DROP
def NIP : Opcode := .named .NIP
def XDROP : Opcode := .named .XDROP
def CLEAR : Opcode := .named .CLEAR
def DUP : Opcode := .named .DUP
def OVER : Opcode := .named .OVER
def PICK : Opcode := .named .PICK
def TUCK : Opcode := .named .TUCK
def SWAP : Opcode := .named .SWAP
def ROT : Opcode := .named .ROT
def ROLL : Opcode := .named .ROLL
def REVERSE3 : Opcode := .named .REVERSE3
def REVERSE4 : Opcode := .named .REVERSE4
def REVERSEN : Opcode := .named .REVERSEN
def INITSSLOT : Opcode := .named .INITSSLOT
def INITSLOT : Opcode := .named .INITSLOT
def LDSFLD0 : Opcode := .named .LDSFLD0
def LDSFLD1 : Opcode := .named .LDSFLD1
def LDSFLD2 : Opcode := .named .LDSFLD2
def LDSFLD3 : Opcode := .named .LDSFLD3
def LDSFLD4 : Opcode := .named .LDSFLD4
def LDSFLD5 : Opcode := .named .LDSFLD5
def LDSFLD6 : Opcode := .named .LDSFLD6
def LDSFLD : Opcode := .named .LDSFLD
def STSFLD0 : Opcode := .named .STSFLD0
def STSFLD1 : Opcode := .named .STSFLD1
def STSFLD2 : Opcode := .named .STSFLD2
def STSFLD3 : Opcode := .named .STSFLD3
def STSFLD4 : Opcode := .named .STSFLD4
def STSFLD5 : Opcode := .named .STSFLD5
def STSFLD6 : Opcode := .named .STSFLD6
def STSFLD : Opcode := .named .STSFLD
def LDLOC0 : Opcode := .named .LDLOC0
def LDLOC1 : Opcode := .named .LDLOC1
def LDLOC2 : Opcode := .named .LDLOC2
def LDLOC3 : Opcode := .named .LDLOC3
def LDLOC4 : Opcode := .named .LDLOC4
def LDLOC5 : Opcode := .named .LDLOC5
def LDLOC6 : Opcode := .named .LDLOC6
def LDLOC : Opcode := .named .LDLOC
def STLOC0 : Opcode := .named .STLOC0
def STLOC1 : Opcode := .named .STLOC1
def STLOC2 : Opcode := .named .STLOC2
def STLOC3 : Opcode := .named .STLOC3
def STLOC4 : Opcode := .named .STLOC4
def STLOC5 : Opcode := .named .STLOC5
def STLOC6 : Opcode := .named .STLOC6
def STLOC : Opcode := .named .STLOC
def LDARG0 : Opcode := .named .LDARG0
def LDARG1 : Opcode := .named .LDARG1
def LDARG2 : Opcode := .named .LDARG2
def LDARG3 : Opcode := .named .LDARG3
def LDARG4 : Opcode := .named .LDARG4
def LDARG5 : Opcode := .named .LDARG5
def LDARG6 : Opcode := .named .LDARG6
def LDARG : Opcode := .named .LDARG
def STARG0 : Opcode := .named .STARG0
def STARG1 : Opcode := .named .STARG1
def STARG2 : Opcode := .named .STARG2
def STARG3 : Opcode := .named .STARG3
def STARG4 : Opcode := .named .STARG4
def STARG5 : Opcode := .named .STARG5
def STARG6 : Opcode := .named .STARG6
def STARG : Opcode := .named .STARG
def NEWBUFFER : Opcode := .named .NEWBUFFER
def MEMCPY : Opcode := .named .MEMCPY
def CAT : Opcode := .named .CAT
def SUBSTR : Opcode := .named .SUBSTR
def LEFT : Opcode := .named .LEFT
def RIGHT : Opcode := .named .RIGHT
def INVERT : Opcode := .named .INVERT
def AND : Opcode := .named .AND
def OR : Opcode := .named .OR
def XOR : Opcode := .named .XOR
def EQUAL : Opcode := .named .EQUAL
def NOTEQUAL : Opcode := .named .NOTEQUAL
def SIGN : Opcode := .named .SIGN
def ABS : Opcode := .named .ABS
def NEGATE : Opcode := .named .NEGATE
def INC : Opcode := .named .INC
def DEC : Opcode := .named .DEC
def ADD : Opcode := .named .ADD
def SUB : Opcode := .named .SUB
def MUL : Opcode := .named .MUL
def DIV : Opcode := .named .DIV
def MOD : Opcode := .named .MOD
def POW : Opcode := .named .POW
def SQRT : Opcode := .named .SQRT
def SHL : Opcode := .named .SHL
def SHR : Opcode := .named .SHR
def NOT : Opcode := .named .NOT
def BOOLAND : Opcode := .named .BOOLAND
def BOOLOR : Opcode := .named .BOOLOR
def NZ : Opcode := .named .NZ
def NUMEQUAL : Opcode := .named .NUMEQUAL
def NUMNOTEQUAL : Opcode := .named .NUMNOTEQUAL
def LT : Opcode := .named .LT
def LTE : Opcode := .named .LTE
def GT : Opcode := .named .GT
def GTE : Opcode := .named .GTE
def MIN : Opcode := .named .MIN
def MAX : Opcode := .named .MAX
def WITHIN : Opcode := .named .WITHIN
def PACK : Opcode := .named .PACK
def UNPACK : Opcode := .named .UNPACK
def NEWARRAY0 : Opcode := .named .NEWARRAY0
def NEWARRAY : Opcode := .named .NEWARRAY
def NEWARRAYT : Opcode := .named .NEWARRAYT
def NEWSTRUCT0 : Opcode := .named .NEWSTRUCT0
def NEWSTRUCT : Opcode := .named .NEWSTRUCT
def NEWMAP : Opcode := .named .NEWMAP
def SIZE : Opcode := .named .SIZE
def HASKEY : Opcode := .named .HASKEY
def KEYS : Opcode := .named .KEYS
def VALUES : Opcode := .named .VALUES
def PICKITEM : Opcode := .named .PICKITEM
def APPEND : Opcode := .named .APPEND
def SETITEM : Opcode := .named .SETITEM
def REVERSEITEMS : Opcode := .named .REVERSEITEMS
def REMOVE : Opcode := .named .REMOVE
def CLEARITEMS : Opcode := .named .CLEARITEMS
def POPITEM : Opcode := .named .POPITEM
def ISNULL : Opcode := .named .ISNULL
def ISTYPE : Opcode := .named .ISTYPE
def CONVERT : Opcode := .named .CONVERT

/-- Modelled from the spec: the constant for pushing the boolean `true` is declared in the
absent package `pkg/vm/opcode` and keys no row of `coefficients`. The spec prices
"push small integers/booleans/NOP = 1": the boolean push is the push of the small
integer `1`. -/
def PUSHT : Opcode := PUSH1

/-- Modelled from the spec: the constant for pushing the boolean `false` is declared in the
absent package `pkg/vm/opcode` and keys no row of `coefficients`. The spec prices
"push small integers/booleans/NOP = 1": the boolean push is the push of the small
integer `0`. -/
def PUSHF : Opcode := PUSH0

end opcode

namespace fee

/-- Lower bound of Go's `int64`. -/
def minInt64 : Int := -(2 ^ 63)

/-- Upper bound of Go's `int64`. -/
def maxInt64 : Int := 2 ^ 63 - 1

/-- The integer is representable as an `int64`. -/
def inInt64 (x : Int) : Prop := minInt64 ≤ x ∧ x ≤ maxInt64

instance (x : Int) : Decidable (inInt64 x) := by
  unfold inInt64; exact inferInstance

/-- Two's-complement reduction of an integer to the `int64` range: Go's arithmetic on
`int64` wraps around silently. -/
def toInt64 (x : Int) : Int := (x + 2 ^ 63) % 2 ^ 64 - 2 ^ 63

/-- Go's `+` on `int64`. -/
def add64 (a b : Int) : Int := toInt64 (a + b)

/-- Go's `*` on `int64`. -/
def mul64 (a b : Int) : Int := toInt64 (a * b)

/-- Go's constant shift `x << k`. -/
def shl (x : Int) (k : Nat) : Int := x * 2 ^ k

/-- The map literal `coefficients`, its rows in source order. -/
def coefficients : List (opcode.Opcode × Int) := [
  (opcode.PUSHINT8, shl 1 0),
  (opcode.PUSHINT16, shl 1 0),
  (opcode.PUSHINT32, shl 1 0),
  (opcode.PUSHINT64, shl 1 0),
  (opcode.PUSHINT128, shl 1 2),
  (opcode.PUSHINT256, shl 1 2),
  (opcode.PUSHA, shl 1 2),
  (opcode.PUSHNULL, shl 1 0),
  (opcode.PUSHDATA1, shl 1 3),
  (opcode.PUSHDATA2, shl 1 9),
  (opcode.PUSHDATA4, shl 1 12),
  (opcode.PUSHM1, shl 1 0),
  (opcode.PUSH0, shl 1 0),
  (opcode.PUSH1, shl 1 0),
  (opcode.PUSH2, shl 1 0),
  (opcode.PUSH3, shl 1 0),
  (opcode.PUSH4, shl 1 0),
  (opcode.PUSH5, shl 1 0),
  (opcode.PUSH6, shl 1 0),
  (opcode.PUSH7, shl 1 0),
  (opcode.PUSH8, shl 1 0),
  (opcode.PUSH9, shl 1 0),
  (opcode.PUSH10, shl 1 0),
  (opcode.PUSH11, shl 1 0),
  (opcode.PUSH12, shl 1 0),
  (opcode.PUSH13, shl 1 0),
  (opcode.PUSH14, shl 1 0),
  (opcode.PUSH15, shl 1 0),
  (opcode.PUSH16, shl 1 0),
  (opcode.NOP, shl 1 0),
  (opcode.JMP, shl 1 1),
  (opcode.JMPL, shl 1 1),
  (opcode.JMPIF, shl 1 1),
  (opcode.JMPIFL, shl 1 1),
  (opcode.JMPIFNOT, shl 1 1),
  (opcode.JMPIFNOTL, shl 1 1),
  (opcode.JMPEQ, shl 1 1),
  (opcode.JMPEQL, shl 1 1),
  (opcode.JMPNE, shl 1 1),
  (opcode.JMPNEL, shl 1 1),
  (opcode.JMPGT, shl 1 1),
  (opcode.JMPGTL, shl 1 1),
  (opcode.JMPGE, shl 1 1),
  (opcode.JMPGEL, shl 1 1),
  (opcode.JMPLT, shl 1 1),
  (opcode.JMPLTL, shl 1 1),
  (opcode.JMPLE, shl 1 1),
  (opcode.JMPLEL, shl 1 1),
  (opcode.CALL, shl 1 9),
  (opcode.CALLL, shl 1 9),
  (opcode.CALLA, shl 1 9),
  (opcode.ABORT, 0),
  (opcode.ASSERT, shl 1 0),
  (opcode.THROW, shl 1 9),
  (opcode.TRY, shl 1 2),
  (opcode.TRYL, shl 1 2),
  (opcode.ENDTRY, shl 1 2),
  (opcode.ENDTRYL, shl 1 2),
  (opcode.ENDFINALLY, shl 1 2),
  (opcode.RET, 0),
  (opcode.SYSCALL, 0),
  (opcode.DEPTH, shl 1 1),
  (opcode.DROP, shl 1 1),
  (opcode.NIP, shl 1 1),
  (opcode.XDROP, shl 1 4),
  (opcode.CLEAR, shl 1 4),
  (opcode.DUP, shl 1 1),
  (opcode.OVER, shl 1 1),
  (opcode.PICK, shl 1 1),
  (opcode.TUCK, shl 1 1),
  (opcode.SWAP, shl 1 1),
  (opcode.ROT, shl 1 1),
  (opcode.ROLL, shl 1 4),
  (opcode.REVERSE3, shl 1 1),
  (opcode.REVERSE4, shl 1 1),
  (opcode.REVERSEN, shl 1 4),
  (opcode.INITSSLOT, shl 1 4),
  (opcode.INITSLOT, shl 1 6),
  (opcode.LDSFLD0, shl 1 1),
  (opcode.LDSFLD1, shl 1 1),
  (opcode.LDSFLD2, shl 1 1),
  (opcode.LDSFLD3, shl 1 1),
  (opcode.LDSFLD4, shl 1 1),
  (opcode.LDSFLD5, shl 1 1),
  (opcode.LDSFLD6, shl 1 1),
  (opcode.LDSFLD, shl 1 1),
  (opcode.STSFLD0, shl 1 1),
  (opcode.STSFLD1, shl 1 1),
  (opcode.STSFLD2, shl 1 1),
  (opcode.STSFLD3, shl 1 1),
  (opcode.STSFLD4, shl 1 1),
  (opcode.STSFLD5, shl 1 1),
  (opcode.STSFLD6, shl 1 1),
  (opcode.STSFLD, shl 1 1),
  (opcode.LDLOC0, shl 1 1),
  (opcode.LDLOC1, shl 1 1),
  (opcode.LDLOC2, shl 1 1),
  (opcode.LDLOC3, shl 1 1),
  (opcode.LDLOC4, shl 1 1),
  (opcode.LDLOC5, shl 1 1),
  (opcode.LDLOC6, shl 1 1),
  (opcode.LDLOC, shl 1 1),
  (opcode.STLOC0, shl 1 1),
  (opcode.STLOC1, shl 1 1),
  (opcode.STLOC2, shl 1 1),
  (opcode.STLOC3, shl 1 1),
  (opcode.STLOC4, shl 1 1),
  (opcode.STLOC5, shl 1 1),
  (opcode.STLOC6, shl 1 1),
  (opcode.STLOC, shl 1 1),
  (opcode.LDARG0, shl 1 1),
  (opcode.LDARG1, shl 1 1),
  (opcode.LDARG2, shl 1 1),
  (opcode.LDARG3, shl 1 1),
  (opcode.LDARG4, shl 1 1),
  (opcode.LDARG5, shl 1 1),
  (opcode.LDARG6, shl 1 1),
  (opcode.LDARG, shl 1 1),
  (opcode.STARG0, shl 1 1),
  (opcode.STARG1, shl 1 1),
  (opcode.STARG2, shl 1 1),
  (opcode.STARG3, shl 1 1),
  (opcode.STARG4, shl 1 1),
  (opcode.STARG5, shl 1 1),
  (opcode.STARG6, shl 1 1),
  (opcode.STARG, shl 1 1),
  (opcode.NEWBUFFER, shl 1 8),
  (opcode.MEMCPY, shl 1 11),
  (opcode.CAT, shl 1 11),
  (opcode.SUBSTR, shl 1 11),
  (opcode.LEFT, shl 1 11),
  (opcode.RIGHT, shl 1 11),
  (opcode.INVERT, shl 1 2),
  (opcode.AND, shl 1 3),
  (opcode.OR, shl 1 3),
  (opcode.XOR, shl 1 3),
  (opcode.EQUAL, shl 1 5),
  (opcode.NOTEQUAL, shl 1 5),
  (opcode.SIGN, shl 1 2),
  (opcode.ABS, shl 1 2),
  (opcode.NEGATE, shl 1 2),
  (opcode.INC, shl 1 2),
  (opcode.DEC, shl 1 2),
  (opcode.ADD, shl 1 3),
  (opcode.SUB, shl 1 3),
  (opcode.MUL, shl 1 3),
  (opcode.DIV, shl 1 3),
  (opcode.MOD, shl 1 3),
  (opcode.POW, shl 1 6),
  (opcode.SQRT, shl 1 11),
  (opcode.SHL, shl 1 3),
  (opcode.SHR, shl 1 3),
  (opcode.NOT, shl 1 2),
  (opcode.BOOLAND, shl 1 3),
  (opcode.BOOLOR, shl 1 3),
  (opcode.NZ, shl 1 2),
  (opcode.NUMEQUAL, shl 1 3),
  (opcode.NUMNOTEQUAL, shl 1 3),
  (opcode.LT, shl 1 3),
  (opcode.LTE, shl 1 3),
  (opcode.GT, shl 1 3),
  (opcode.GTE, shl 1 3),
  (opcode.MIN, shl 1 3),
  (opcode.MAX, shl 1 3),
  (opcode.WITHIN, shl 1 3),
  (opcode.PACK, shl 1 9),
  (opcode.UNPACK, shl 1 9),
  (opcode.NEWARRAY0, shl 1 4),
  (opcode.NEWARRAY, shl 1 9),
  (opcode.NEWARRAYT, shl 1 9),
  (opcode.NEWSTRUCT0, shl 1 4),
  (opcode.NEWSTRUCT, shl 1 9),
  (opcode.NEWMAP, shl 1 3),
  (opcode.SIZE, shl 1 2),
  (opcode.HASKEY, shl 1 6),
  (opcode.KEYS, shl 1 4),
  (opcode.VALUES, shl 1 13),
  (opcode.PICKITEM, shl 1 6),
  (opcode.APPEND, shl 1 13),
  (opcode.SETITEM, shl 1 13),
  (opcode.REVERSEITEMS, shl 1 13),
  (opcode.REMOVE, shl 1 4),
  (opcode.CLEARITEMS, shl 1 4),
  (opcode.POPITEM, shl 1 4),
  (opcode.ISNULL, shl 1 1),
  (opcode.ISTYPE, shl 1 1),
  (opcode.CONVERT, shl 1 11)
]

/-- Go's map index expression `m[k]` on a `map[opcode.Opcode]int64`: the stored value, or
the zero value of `int64` when the key is absent. It never fails. -/
def mapIndex (m : List (opcode.Opcode × Int)) (k : opcode.Opcode) : Int :=
  match m.lookup k with
  | some v => v
  | none => 0

/-- Opcode returns the deployment coefficients of specified opcodes. -/
def Opcode (base : Int) (opcodes : List opcode.Opcode) : Int :=
  let result := opcodes.foldl (fun result op => add64 result (mapIndex coefficients op)) 0
  mul64 result base

/-- The exact, unbounded sum of the table values that the loop of `Opcode` accumulates. -/
def coefficientSum (opcodes : List opcode.Opcode) : Int :=
  (opcodes.map (mapIndex coefficients)).sum

/-- The coefficients of the opcodes when every one of them keys a row of the table, and
`none` as soon as one of them keys no row. -/
def coefficientsOf : List opcode.Opcode → Option (List Int)
  | [] => some []
  | op :: rest =>
    match coefficients.lookup op, coefficientsOf rest with
    | some c, some cs => some (c :: cs)
    | _, _ => none

/-- The price as the spec words it: `base × Σ coefficient(opcode_i)`, and a fault (`none`)
when the price of an opcode absent from the table is requested. -/
def specPrice (base : Int) (opcodes : List opcode.Opcode) : Option Int :=
  match coefficientsOf opcodes with
  | some cs => some (mul64 base (cs.foldl add64 0))
  | none => none

/-- The opcodes with a zero coefficient. -/
def freeOpcodes : List opcode.Opcode := [opcode.ABORT, opcode.RET, opcode.SYSCALL]

/-- The opcodes the spec names as stack operations. -/
def stackOpcodes : List opcode.Opcode :=
  [opcode.DUP, opcode.SWAP, opcode.PICK, opcode.DROP, opcode.ROLL]

/-- The opcodes the spec names as composite construction and access. -/
def compositeOpcodes : List opcode.Opcode :=
  [opcode.NEWARRAY, opcode.NEWSTRUCT, opcode.NEWMAP, opcode.PICKITEM, opcode.SETITEM,
   opcode.APPEND]

/-- The opcodes the spec names as buffer and string operations. -/
def bufferOpcodes : List opcode.Opcode :=
  [opcode.MEMCPY, opcode.CAT, opcode.SUBSTR, opcode.LEFT, opcode.RIGHT]

/-- The arithmetic, bitwise and comparison opcodes of the table other than `POW` and
`SQRT`. -/
def narrowArithmeticOpcodes : List opcode.Opcode :=
  [opcode.INVERT, opcode.AND, opcode.OR, opcode.XOR, opcode.EQUAL, opcode.NOTEQUAL,
   opcode.SIGN, opcode.ABS, opcode.NEGATE, opcode.INC, opcode.DEC, opcode.ADD, opcode.SUB,
   opcode.MUL, opcode.DIV, opcode.MOD, opcode.SHL, opcode.SHR, opcode.NOT, opcode.BOOLAND,
   opcode.BOOLOR, opcode.NZ, opcode.NUMEQUAL, opcode.NUMNOTEQUAL, opcode.LT, opcode.LTE,
   opcode.GT, opcode.GTE, opcode.MIN, opcode.MAX, opcode.WITHIN]

/-- The opcodes that push a small constant, and `NOP`. -/
def unitOpcodes : List opcode.Opcode :=
  [opcode.NOP, opcode.PUSHM1, opcode.PUSH0, opcode.PUSH1, opcode.PUSH2, opcode.PUSH3,
   opcode.PUSH4, opcode.PUSH5, opcode.PUSH6, opcode.PUSH7, opcode.PUSH8, opcode.PUSH9,
   opcode.PUSH10, opcode.PUSH11, opcode.PUSH12, opcode.PUSH13, opcode.PUSH14, opcode.PUSH15,
   opcode.PUSH16, opcode.PUSHT, opcode.PUSHF]

/-- The control-flow opcodes that have a long-offset form, each paired with that form. -/
def shortLongPairs : List (opcode.Opcode × opcode.Opcode) :=
  [(opcode.JMP, opcode.JMPL), (opcode.JMPIF, opcode.JMPIFL), (opcode.JMPIFNOT, opcode.JMPIFNOTL),
   (opcode.JMPEQ, opcode.JMPEQL), (opcode.JMPNE, opcode.JMPNEL), (opcode.JMPGT, opcode.JMPGTL),
   (opcode.JMPGE, opcode.JMPGEL), (opcode.JMPLT, opcode.JMPLTL), (opcode.JMPLE, opcode.JMPLEL),
   (opcode.CALL, opcode.CALLL), (opcode.TRY, opcode.TRYL), (opcode.ENDTRY, opcode.ENDTRYL)]

/-- The value of the variable `result` of `Opcode` when its loop has run over the
opcodes. -/
def accumulated (opcodes : List opcode.Opcode) : Int :=
  opcodes.foldl (fun result op => add64 result (mapIndex coefficients op)) 0

/-- No addition `result += coefficients[op]` of the loop of `Opcode` wraps around when the
loop runs over the opcodes from the given value of `result`: each exact sum is
representable as an `int64`. -/
def accumulationExact : Int → List opcode.Opcode → Prop
  | _, [] => True
  | result, op :: rest =>
    inInt64 (result + mapIndex coefficients op) ∧
    accumulationExact (add64 result (mapIndex coefficients op)) rest

end fee

namespace fee

/-! ## Arithmetic of `int64` -/

theorem toInt64_modEq (x : Int) : toInt64 x ≡ x [ZMOD 2 ^ 64] := by
  unfold toInt64 Int.ModEq
  omega

theorem toInt64_congr {a b : Int} (h : a ≡ b [ZMOD 2 ^ 64]) : toInt64 a = toInt64 b := by
  unfold toInt64
  have h2 : (a + 2 ^ 63) % 2 ^ 64 = (b + 2 ^ 63) % 2 ^ 64 := h.add_right _
  rw [h2]

theorem toInt64_inInt64 (x : Int) : inInt64 (toInt64 x) := by
  unfold inInt64 minInt64 maxInt64 toInt64
  omega

theorem toInt64_of_inInt64 {x : Int} (h : inInt64 x) : toInt64 x = x := by
  unfold inInt64 minInt64 maxInt64 at h
  unfold toInt64
  omega

theorem toInt64_add_left (a b : Int) : toInt64 (toInt64 a + b) = toInt64 (a + b) :=
  toInt64_congr ((toInt64_modEq a).add_right b)

theorem toInt64_mul_left (a b : Int) : toInt64 (toInt64 a * b) = toInt64 (a * b) :=
  toInt64_congr ((toInt64_modEq a).mul_right b)

theorem toInt64_mul_right (a b : Int) : toInt64 (a * toInt64 b) = toInt64 (a * b) :=
  toInt64_congr ((toInt64_modEq b).mul_left a)

/-! ## The accumulation loop -/

theorem foldl_add64 {α : Type} (f : α → Int) (l : List α) (acc : Int) :
    toInt64 (l.foldl (fun result x => add64 result (f x)) acc)
      = toInt64 (acc + (l.map f).sum) := by
  induction l generalizing acc with
  | nil => simp
  | cons x rest ih =>
    simp only [List.foldl_cons, List.map_cons, List.sum_cons]
    rw [ih, add64, toInt64_add_left, add_assoc]

theorem foldl_add64_sum (cs : List Int) :
    toInt64 (cs.foldl add64 0) = toInt64 cs.sum := by
  have h := foldl_add64 (fun c : Int => c) cs 0
  simpa using h

/-- The value of `Opcode` is the exact product of the accumulated table values and the
base, reduced to `int64`. -/
theorem Opcode_eq_toInt64 (base : Int) (opcodes : List opcode.Opcode) :
    Opcode base opcodes = toInt64 (coefficientSum opcodes * base) := by
  unfold Opcode mul64 coefficientSum
  simp only
  rw [← toInt64_mul_left, foldl_add64, zero_add, toInt64_mul_left]

theorem coefficientSum_append (xs ys : List opcode.Opcode) :
    coefficientSum (xs ++ ys) = coefficientSum xs + coefficientSum ys := by
  simp [coefficientSum]

theorem coefficientSum_cons (op : opcode.Opcode) (rest : List opcode.Opcode) :
    coefficientSum (op :: rest) = mapIndex coefficients op + coefficientSum rest := by
  simp [coefficientSum]

theorem coefficientSum_nil : coefficientSum [] = 0 := rfl

theorem Opcode_singleton (base : Int) (op : opcode.Opcode) :
    Opcode base [op] = mul64 (mapIndex coefficients op) base := by
  rw [Opcode_eq_toInt64, coefficientSum_cons, coefficientSum_nil, add_zero, mul64]

/-! ## The table -/

theorem mem_of_lookup {k : opcode.Opcode} {v : Int} :
    ∀ {m : List (opcode.Opcode × Int)}, m.lookup k = some v → (k, v) ∈ m
  | [], h => by simp at h
  | (k2, v2) :: rest, h => by
    rw [List.lookup_cons] at h
    by_cases hk : k = k2
    · subst hk
      simp at h
      subst h
      exact List.mem_cons_self _ _
    · have hb : (k == k2) = false := by simpa using hk
      rw [hb] at h
      exact List.mem_cons_of_mem _ (mem_of_lookup h)

theorem mapIndex_of_lookup_some {m : List (opcode.Opcode × Int)} {k : opcode.Opcode} {v : Int}
    (h : m.lookup k = some v) : mapIndex m k = v := by
  simp [mapIndex, h]

theorem mapIndex_of_lookup_none {m : List (opcode.Opcode × Int)} {k : opcode.Opcode}
    (h : m.lookup k = none) : mapIndex m k = 0 := by
  simp [mapIndex, h]

theorem map_mapIndex_of_lookup :
    ∀ (ops : List opcode.Opcode) (cs : List Int),
      ops.map (fun op => coefficients.lookup op) = cs.map some →
      ops.map (mapIndex coefficients) = cs
  | [], [], _ => rfl
  | [], _ :: _, h => by simp at h
  | _ :: _, [], h => by simp at h
  | op :: rest, c :: cs, h => by
    simp only [List.map_cons, List.cons.injEq] at h
    simp only [List.map_cons, List.cons.injEq]
    exact ⟨mapIndex_of_lookup_some h.1, map_mapIndex_of_lookup rest cs h.2⟩

/-! ## The price of a sequence -/

/-- C1: for every base and every sequence of opcodes that each key a row of the table,
with coefficients `cs` in order, `Opcode` returns the base multiplied by the sum of those
coefficients, one term per occurrence, in signed 64-bit arithmetic; it is the exact
integer product whenever that product fits in `int64`. -/
theorem Opcode_eq_base_mul_sum (base : Int) (ops : List opcode.Opcode) (cs : List Int)
    (h : ops.map (fun op => coefficients.lookup op) = cs.map some) :
    Opcode base ops = mul64 base (cs.foldl add64 0) ∧
    Opcode base ops = toInt64 (base * cs.sum) ∧
    (inInt64 (base * cs.sum) → Opcode base ops = base * cs.sum) := by
  have hs : coefficientSum ops = cs.sum := by
    unfold coefficientSum
    rw [map_mapIndex_of_lookup ops cs h]
  have h2 : Opcode base ops = toInt64 (base * cs.sum) := by
    rw [Opcode_eq_toInt64, hs, mul_comm]
  refine ⟨?_, h2, fun hfit => ?_⟩
  · rw [h2, mul64, ← toInt64_mul_right base (cs.foldl add64 0), foldl_add64_sum,
      toInt64_mul_right]
  · rw [h2, toInt64_of_inInt64 hfit]

theorem Opcode_eq_base_mul_sum_witness :
    Opcode 3 [opcode.PUSH2, opcode.ADD, opcode.PUSH2] = mul64 3 ([1, 8, 1].foldl add64 0) ∧
    Opcode 3 [opcode.PUSH2, opcode.ADD, opcode.PUSH2] = toInt64 (3 * [1, 8, 1].sum) ∧
    (inInt64 (3 * [1, 8, 1].sum) →
      Opcode 3 [opcode.PUSH2, opcode.ADD, opcode.PUSH2] = 3 * [1, 8, 1].sum) :=
  Opcode_eq_base_mul_sum 3 [opcode.PUSH2, opcode.ADD, opcode.PUSH2] [1, 8, 1] (by decide)

/-- C2 (counterexample): an opcode that keys no row of the table is priced without a
fault. At base 5 the lookup of `unassigned 0` finds nothing and the spec's pricing
faults, yet `Opcode` returns the price 0, and within a sequence it returns the price of
the other opcodes. -/
theorem Opcode_absent_returns :
    coefficients.lookup (opcode.Opcode.unassigned 0) = none ∧
    specPrice 5 [opcode.Opcode.unassigned 0] = none ∧
    Opcode 5 [opcode.Opcode.unassigned 0] = 0 ∧
    specPrice 5 [opcode.PUSH1, opcode.Opcode.unassigned 0, opcode.ADD] = none ∧
    Opcode 5 [opcode.PUSH1, opcode.Opcode.unassigned 0, opcode.ADD] = 45 := by
  decide

/-- C2 (amended): requesting the price of an opcode absent from the table is no fault.
`Opcode` is a total function; an opcode that keys no row contributes the zero value of
the map index, so the sequence is priced as if the opcode were not there, and the opcode
alone is priced 0. -/
theorem Opcode_absent_contributes_zero (base : Int) (xs ys : List opcode.Opcode)
    (op : opcode.Opcode) (h : coefficients.lookup op = none) :
    Opcode base (xs ++ op :: ys) = Opcode base (xs ++ ys) ∧ Opcode base [op] = 0 := by
  have h0 : mapIndex coefficients op = 0 := mapIndex_of_lookup_none h
  constructor
  · rw [Opcode_eq_toInt64, Opcode_eq_toInt64, coefficientSum_append, coefficientSum_cons,
      coefficientSum_append, h0, zero_add]
  · rw [Opcode_singleton, h0, mul64, zero_mul]
    decide

theorem Opcode_absent_contributes_zero_witness :
    Opcode 7 ([opcode.PUSH1] ++ opcode.Opcode.unassigned 68 :: [opcode.ADD])
      = Opcode 7 ([opcode.PUSH1] ++ [opcode.ADD]) ∧
    Opcode 7 [opcode.Opcode.unassigned 68] = 0 :=
  Opcode_absent_contributes_zero 7 [opcode.PUSH1] [opcode.ADD] (opcode.Opcode.unassigned 68)
    (by decide)

/-- C3 (counterexample): at base 1 the sequence `PUSH2 PUSH3 ADD` is priced 10, not 5. -/
theorem Opcode_push2_push3_add_ne_five :
    Opcode 1 [opcode.PUSH2, opcode.PUSH3, opcode.ADD] = 10 ∧
    Opcode 1 [opcode.PUSH2, opcode.PUSH3, opcode.ADD] ≠ 5 * 1 := by
  decide

/-- C3 (amended): for every base the price of `PUSH2 PUSH3 ADD` is `base × (1 + 1 + 8)`,
that is `10 × base` in signed 64-bit arithmetic, and exactly `10 × base` when that fits
in `int64`: the coefficient of `ADD` is `1 << 3 = 8`. -/
theorem Opcode_push2_push3_add (base : Int) :
    mapIndex coefficients opcode.ADD = 8 ∧
    Opcode base [opcode.PUSH2, opcode.PUSH3, opcode.ADD] = mul64 (1 + 1 + 8) base ∧
    (inInt64 (10 * base) → Opcode base [opcode.PUSH2, opcode.PUSH3, opcode.ADD] = 10 * base) := by
  have hs : coefficientSum [opcode.PUSH2, opcode.PUSH3, opcode.ADD] = 10 := by decide
  refine ⟨by decide, ?_, fun hfit => ?_⟩
  · rw [Opcode_eq_toInt64, hs, mul64]
    norm_num
  · rw [Opcode_eq_toInt64, hs, toInt64_of_inInt64 hfit]

theorem Opcode_push2_push3_add_witness :
    inInt64 (10 * 1000) ∧ Opcode 1000 [opcode.PUSH2, opcode.PUSH3, opcode.ADD] = 10 * 1000 :=
  ⟨by decide, (Opcode_push2_push3_add 1000).2.2 (by decide)⟩

/-! ## The shape of the table -/

/-- C4 (counterexample): `ABORT` keys a row of the table whose coefficient is 0, which is
no power of two. -/
theorem coefficient_abort_not_power_of_two :
    coefficients.lookup opcode.ABORT = some 0 ∧ ¬ ∃ k : Nat, k ≤ 13 ∧ (0 : Int) = 2 ^ k := by
  refine ⟨by decide, ?_⟩
  rintro ⟨k, -, hk⟩
  exact absurd hk.symm (pow_ne_zero k (by norm_num))

set_option maxRecDepth 100000 in
theorem coefficients_rows :
    ∀ p ∈ coefficients,
      (p.2 = 0 ∧ p.1 ∈ freeOpcodes) ∨ (p.1 ∉ freeOpcodes ∧ ∃ k, k < 14 ∧ p.2 = 2 ^ k) := by
  decide

/-- C4 (amended): every coefficient stored in the table is either 0, which is the case
exactly for `ABORT`, `RET` and `SYSCALL`, or a power of two `2^k` with `0 ≤ k ≤ 13`. -/
theorem coefficient_zero_or_power_of_two (op : opcode.Opcode) (c : Int)
    (h : coefficients.lookup op = some c) :
    (c = 0 ∧ op ∈ freeOpcodes) ∨ (op ∉ freeOpcodes ∧ ∃ k : Nat, k ≤ 13 ∧ c = 2 ^ k) := by
  rcases coefficients_rows (op, c) (mem_of_lookup h) with h0 | ⟨hn, k, hk, hc⟩
  · exact Or.inl h0
  · exact Or.inr ⟨hn, k, by omega, hc⟩

theorem coefficient_zero_or_power_of_two_witness :
    (((8192 : Int) = 0 ∧ opcode.SETITEM ∈ freeOpcodes) ∨
      (opcode.SETITEM ∉ freeOpcodes ∧ ∃ k : Nat, k ≤ 13 ∧ (8192 : Int) = 2 ^ k)) ∧
    ((((0 : Int) = 0 ∧ opcode.RET ∈ freeOpcodes) ∨
      (opcode.RET ∉ freeOpcodes ∧ ∃ k : Nat, k ≤ 13 ∧ (0 : Int) = 2 ^ k))) :=
  ⟨coefficient_zero_or_power_of_two opcode.SETITEM 8192 (by decide),
   coefficient_zero_or_power_of_two opcode.RET 0 (by decide)⟩

/-! ## Free opcodes -/

theorem mapIndex_freeOpcodes : ∀ op ∈ freeOpcodes, mapIndex coefficients op = 0 := by
  decide

theorem coefficientSum_filter_free (s : List opcode.Opcode) :
    coefficientSum (s.filter (fun op => decide (op ∉ freeOpcodes))) = coefficientSum s := by
  induction s with
  | nil => rfl
  | cons op rest ih =>
    by_cases hop : op ∈ freeOpcodes
    · rw [List.filter_cons_of_neg (by simpa using hop), ih, coefficientSum_cons,
        mapIndex_freeOpcodes op hop, zero_add]
    · rw [List.filter_cons_of_pos (by simpa using hop), coefficientSum_cons,
        coefficientSum_cons, ih]

theorem coefficientSum_free (zs : List opcode.Opcode) (h : ∀ z ∈ zs, z ∈ freeOpcodes) :
    coefficientSum zs = 0 := by
  induction zs with
  | nil => rfl
  | cons z rest ih =>
    rw [coefficientSum_cons, mapIndex_freeOpcodes z (h z (List.mem_cons_self _ _)),
      ih (fun y hy => h y (List.mem_cons_of_mem _ hy)), add_zero]

/-- C5: `ABORT`, `RET` and `SYSCALL` carry a zero coefficient. For every base each of them
is priced 0; inserting any run of them anywhere into a sequence leaves its price
unchanged; and two sequences that agree once these three opcodes are dropped, as do a
sequence and any sequence obtained from it by inserting them at any number of places,
have the same price. -/
theorem Opcode_free (base : Int) :
    Opcode base [opcode.ABORT] = 0 ∧ Opcode base [opcode.RET] = 0 ∧
    Opcode base [opcode.SYSCALL] = 0 ∧
    (∀ xs zs ys : List opcode.Opcode, (∀ z ∈ zs, z ∈ freeOpcodes) →
      Opcode base (xs ++ zs ++ ys) = Opcode base (xs ++ ys)) ∧
    (∀ s t : List opcode.Opcode,
      s.filter (fun op => decide (op ∉ freeOpcodes))
        = t.filter (fun op => decide (op ∉ freeOpcodes)) →
      Opcode base s = Opcode base t) := by
  have hz : toInt64 (0 * base) = 0 := by rw [zero_mul]; decide
  have h1 : ∀ op ∈ freeOpcodes, Opcode base [op] = 0 := by
    intro op hop
    rw [Opcode_singleton, mapIndex_freeOpcodes op hop, mul64, hz]
  refine ⟨h1 _ (by decide), h1 _ (by decide), h1 _ (by decide), ?_, ?_⟩
  · intro xs zs ys hzs
    rw [Opcode_eq_toInt64, Opcode_eq_toInt64, coefficientSum_append, coefficientSum_append,
      coefficientSum_append, coefficientSum_free zs hzs, add_zero]
  · intro s t hst
    rw [Opcode_eq_toInt64, Opcode_eq_toInt64, ← coefficientSum_filter_free s,
      ← coefficientSum_filter_free t, hst]

theorem Opcode_free_witness :
    Opcode 9 ([opcode.PUSH1] ++ [opcode.RET, opcode.SYSCALL, opcode.RET] ++ [opcode.ADD])
      = Opcode 9 ([opcode.PUSH1] ++ [opcode.ADD]) ∧
    Opcode 9 [opcode.ABORT, opcode.PUSH1, opcode.RET, opcode.ADD, opcode.SYSCALL]
      = Opcode 9 [opcode.PUSH1, opcode.ADD] :=
  ⟨(Opcode_free 9).2.2.2.1 [opcode.PUSH1] [opcode.RET, opcode.SYSCALL, opcode.RET]
      [opcode.ADD] (by decide),
   (Opcode_free 9).2.2.2.2 [opcode.ABORT, opcode.PUSH1, opcode.RET, opcode.ADD, opcode.SYSCALL]
      [opcode.PUSH1, opcode.ADD] (by decide)⟩

/-! ## Price classes -/

theorem Opcode_of_mapIndex (base : Int) (op : opcode.Opcode) (c : Int)
    (h : mapIndex coefficients op = c) :
    Opcode base [op] = mul64 c base ∧ (inInt64 (c * base) → Opcode base [op] = c * base) := by
  rw [Opcode_singleton, h, mul64]
  exact ⟨rfl, fun hfit => toInt64_of_inInt64 hfit⟩

/-- C6 (counterexample): `ROLL` is no stack operation of coefficient 2; at base 1 it is
priced 16. -/
theorem Opcode_roll_ne_two :
    Opcode 1 [opcode.ROLL] = 16 ∧ Opcode 1 [opcode.ROLL] ≠ 2 * 1 := by
  decide

/-- C6 (amended): for every base, each of `DUP`, `SWAP`, `PICK` and `DROP` is priced
`2 × base`, and `ROLL` is priced `16 × base`, in signed 64-bit arithmetic and exactly
when the product fits in `int64`. -/
theorem Opcode_stack (base : Int) :
    (∀ op ∈ [opcode.DUP, opcode.SWAP, opcode.PICK, opcode.DROP],
      Opcode base [op] = mul64 2 base ∧ (inInt64 (2 * base) → Opcode base [op] = 2 * base)) ∧
    Opcode base [opcode.ROLL] = mul64 16 base ∧
    (inInt64 (16 * base) → Opcode base [opcode.ROLL] = 16 * base) := by
  have h2 : ∀ op ∈ [opcode.DUP, opcode.SWAP, opcode.PICK, opcode.DROP],
      mapIndex coefficients op = 2 := by decide
  exact ⟨fun op hop => Opcode_of_mapIndex base op 2 (h2 op hop),
    Opcode_of_mapIndex base opcode.ROLL 16 (by decide)⟩

theorem Opcode_stack_witness :
    Opcode 30 [opcode.SWAP] = 2 * 30 ∧ Opcode 30 [opcode.ROLL] = 16 * 30 :=
  ⟨((Opcode_stack 30).1 opcode.SWAP (by decide)).2 (by decide),
   (Opcode_stack 30).2.2 (by decide)⟩

/-- C7 (counterexample): not every composite opcode is priced above every buffer opcode;
`NEWARRAY` has coefficient 512 and `MEMCPY` has coefficient 2048. -/
theorem composite_not_above_buffer :
    mapIndex coefficients opcode.NEWARRAY = 512 ∧ mapIndex coefficients opcode.MEMCPY = 2048 ∧
    ¬ ∀ a ∈ compositeOpcodes, ∀ b ∈ bufferOpcodes,
      mapIndex coefficients b < mapIndex coefficients a := by
  decide

/-- C7 (amended): of the composite construction and access opcodes only `SETITEM` and
`APPEND` (8192) have a coefficient strictly greater than that of each of `MEMCPY`, `CAT`,
`SUBSTR`, `LEFT` and `RIGHT` (2048); `NEWARRAY` and `NEWSTRUCT` (512), `PICKITEM` (64) and
`NEWMAP` (8) have a strictly smaller one. -/
theorem composite_versus_buffer :
    (coefficients.lookup opcode.SETITEM = some 8192 ∧
      coefficients.lookup opcode.APPEND = some 8192 ∧
      coefficients.lookup opcode.NEWARRAY = some 512 ∧
      coefficients.lookup opcode.NEWSTRUCT = some 512 ∧
      coefficients.lookup opcode.PICKITEM = some 64 ∧
      coefficients.lookup opcode.NEWMAP = some 8) ∧
    ∀ b ∈ bufferOpcodes,
      coefficients.lookup b = some 2048 ∧
      (∀ a ∈ [opcode.SETITEM, opcode.APPEND],
        coefficients.lookup a = some 8192 ∧
        mapIndex coefficients b < mapIndex coefficients a) ∧
      (∀ a ∈ [opcode.NEWARRAY, opcode.NEWSTRUCT, opcode.NEWMAP, opcode.PICKITEM],
        (coefficients.lookup a).isSome ∧
        mapIndex coefficients a < mapIndex coefficients b) := by
  decide

theorem composite_versus_buffer_witness :
    mapIndex coefficients opcode.CAT < mapIndex coefficients opcode.APPEND ∧
    mapIndex coefficients opcode.NEWMAP < mapIndex coefficients opcode.CAT :=
  ⟨((composite_versus_buffer.2 opcode.CAT (by decide)).2.1 opcode.APPEND (by decide)).2,
   ((composite_versus_buffer.2 opcode.CAT (by decide)).2.2 opcode.NEWMAP (by decide)).2⟩

/-- C8: the coefficients of `POW` (64) and of `SQRT` (2048) are each strictly greater than
the coefficient of every other opcode of the arithmetic, bitwise and comparison family. -/
theorem pow_sqrt_above_arithmetic :
    coefficients.lookup opcode.POW = some 64 ∧ coefficients.lookup opcode.SQRT = some 2048 ∧
    ∀ op ∈ narrowArithmeticOpcodes,
      (coefficients.lookup op).isSome ∧
      mapIndex coefficients op < mapIndex coefficients opcode.POW ∧
      mapIndex coefficients op < mapIndex coefficients opcode.SQRT := by
  decide

theorem pow_sqrt_above_arithmetic_witness :
    mapIndex coefficients opcode.EQUAL < mapIndex coefficients opcode.POW ∧
    mapIndex coefficients opcode.EQUAL < mapIndex coefficients opcode.SQRT :=
  (pow_sqrt_above_arithmetic.2.2 opcode.EQUAL (by decide)).2

theorem mapIndex_unitOpcodes : ∀ op ∈ unitOpcodes, mapIndex coefficients op = 1 := by
  decide

theorem coefficientSum_unit (ops : List opcode.Opcode) (h : ∀ op ∈ ops, op ∈ unitOpcodes) :
    coefficientSum ops = ops.length := by
  induction ops with
  | nil => rfl
  | cons op rest ih =>
    rw [coefficientSum_cons, mapIndex_unitOpcodes op (h op (List.mem_cons_self _ _)),
      ih (fun y hy => h y (List.mem_cons_of_mem _ hy)), List.length_cons]
    push_cast
    ring

/-- C9: pushing a small constant and `NOP` cost one unit. For every `int64` base, each of
`NOP`, `PUSHM1`, `PUSH0` through `PUSH16` and the boolean pushes `PUSHT`, `PUSHF` is priced
`base`, and a sequence of `n` such opcodes is priced `n × base`, in signed 64-bit
arithmetic and exactly when the product fits in `int64`. -/
theorem Opcode_unit (base : Int) (hb : inInt64 base) :
    (∀ op ∈ unitOpcodes, (coefficients.lookup op).isSome ∧ Opcode base [op] = base) ∧
    (∀ ops : List opcode.Opcode, (∀ op ∈ ops, op ∈ unitOpcodes) →
      Opcode base ops = mul64 ops.length base ∧
      (inInt64 (ops.length * base) → Opcode base ops = ops.length * base)) := by
  have hs : ∀ op ∈ unitOpcodes, (coefficients.lookup op).isSome = true := by decide
  refine ⟨fun op hop => ⟨hs op hop, ?_⟩, fun ops hops => ?_⟩
  · rw [Opcode_singleton, mapIndex_unitOpcodes op hop, mul64, one_mul, toInt64_of_inInt64 hb]
  · rw [Opcode_eq_toInt64, coefficientSum_unit ops hops, mul64]
    exact ⟨rfl, fun hfit => toInt64_of_inInt64 hfit⟩

theorem Opcode_unit_witness :
    inInt64 250 ∧ Opcode 250 [opcode.PUSH16] = 250 ∧ Opcode 250 [opcode.PUSHT] = 250 ∧
    Opcode 250 [opcode.NOP, opcode.PUSHM1, opcode.PUSHF, opcode.NOP]
      = ([opcode.NOP, opcode.PUSHM1, opcode.PUSHF, opcode.NOP].length : Int) * 250 :=
  ⟨by decide, ((Opcode_unit 250 (by decide)).1 opcode.PUSH16 (by decide)).2,
   ((Opcode_unit 250 (by decide)).1 opcode.PUSHT (by decide)).2,
   ((Opcode_unit 250 (by decide)).2 [opcode.NOP, opcode.PUSHM1, opcode.PUSHF, opcode.NOP]
      (by decide)).2 (by decide)⟩

/-- C10: the `PUSHDATA` opcodes are priced by operand-length class. For every base,
`PUSHDATA1` is priced `8 × base`, `PUSHDATA2` is priced `512 × base` and `PUSHDATA4` is
priced `4096 × base`, in signed 64-bit arithmetic and exactly when the product fits in
`int64`. -/
theorem Opcode_pushdata (base : Int) :
    (Opcode base [opcode.PUSHDATA1] = mul64 8 base ∧
      (inInt64 (8 * base) → Opcode base [opcode.PUSHDATA1] = 8 * base)) ∧
    (Opcode base [opcode.PUSHDATA2] = mul64 512 base ∧
      (inInt64 (512 * base) → Opcode base [opcode.PUSHDATA2] = 512 * base)) ∧
    (Opcode base [opcode.PUSHDATA4] = mul64 4096 base ∧
      (inInt64 (4096 * base) → Opcode base [opcode.PUSHDATA4] = 4096 * base)) :=
  ⟨Opcode_of_mapIndex base opcode.PUSHDATA1 8 (by decide),
   Opcode_of_mapIndex base opcode.PUSHDATA2 512 (by decide),
   Opcode_of_mapIndex base opcode.PUSHDATA4 4096 (by decide)⟩

theorem Opcode_pushdata_witness :
    Opcode 1000 [opcode.PUSHDATA1] = 8 * 1000 ∧ Opcode 1000 [opcode.PUSHDATA2] = 512 * 1000 ∧
    Opcode 1000 [opcode.PUSHDATA4] = 4096 * 1000 :=
  ⟨(Opcode_pushdata 1000).1.2 (by decide), (Opcode_pushdata 1000).2.1.2 (by decide),
   (Opcode_pushdata 1000).2.2.2 (by decide)⟩

/-! ## Further price classes -/

/-- C11: for every base, each of `CALL`, `CALLA`, `THROW`, `PACK`, `UNPACK` and `NEWARRAY`
keys a row of coefficient 512 and is priced `512 × base`, in signed 64-bit arithmetic
and exactly when the product fits in `int64`. -/
theorem Opcode_class_512 (base : Int) :
    ∀ op ∈ [opcode.CALL, opcode.CALLA, opcode.THROW, opcode.PACK, opcode.UNPACK,
        opcode.NEWARRAY],
      coefficients.lookup op = some 512 ∧ Opcode base [op] = mul64 512 base ∧
      (inInt64 (512 * base) → Opcode base [op] = 512 * base) := by
  have hl : ∀ op ∈ [opcode.CALL, opcode.CALLA, opcode.THROW, opcode.PACK, opcode.UNPACK,
      opcode.NEWARRAY], coefficients.lookup op = some 512 := by decide
  intro op hop
  exact ⟨hl op hop, Opcode_of_mapIndex base op 512 (mapIndex_of_lookup_some (hl op hop))⟩

theorem Opcode_class_512_witness :
    Opcode 30 [opcode.THROW] = 512 * 30 ∧ Opcode 30 [opcode.NEWARRAY] = 512 * 30 :=
  ⟨((Opcode_class_512 30) opcode.THROW (by decide)).2.2 (by decide),
   ((Opcode_class_512 30) opcode.NEWARRAY (by decide)).2.2 (by decide)⟩

/-- C12: for every base, each of `MEMCPY`, `CAT`, `SUBSTR`, `LEFT`, `RIGHT`, `SQRT` and
`CONVERT` keys a row of coefficient 2048 and is priced `2048 × base`, in signed 64-bit
arithmetic and exactly when the product fits in `int64`. -/
theorem Opcode_class_2048 (base : Int) :
    ∀ op ∈ [opcode.MEMCPY, opcode.CAT, opcode.SUBSTR, opcode.LEFT, opcode.RIGHT, opcode.SQRT,
        opcode.CONVERT],
      coefficients.lookup op = some 2048 ∧ Opcode base [op] = mul64 2048 base ∧
      (inInt64 (2048 * base) → Opcode base [op] = 2048 * base) := by
  have hl : ∀ op ∈ [opcode.MEMCPY, opcode.CAT, opcode.SUBSTR, opcode.LEFT, opcode.RIGHT,
      opcode.SQRT, opcode.CONVERT], coefficients.lookup op = some 2048 := by decide
  intro op hop
  exact ⟨hl op hop, Opcode_of_mapIndex base op 2048 (mapIndex_of_lookup_some (hl op hop))⟩

theorem Opcode_class_2048_witness :
    Opcode 30 [opcode.SQRT] = 2048 * 30 ∧ Opcode 30 [opcode.CONVERT] = 2048 * 30 :=
  ⟨((Opcode_class_2048 30) opcode.SQRT (by decide)).2.2 (by decide),
   ((Opcode_class_2048 30) opcode.CONVERT (by decide)).2.2 (by decide)⟩

set_option maxRecDepth 100000 in
theorem coefficients_bounds : ∀ p ∈ coefficients, 0 ≤ p.2 ∧ p.2 ≤ 8192 := by
  decide

theorem mapIndex_bounds (op : opcode.Opcode) :
    0 ≤ mapIndex coefficients op ∧ mapIndex coefficients op ≤ 8192 := by
  cases h : coefficients.lookup op with
  | none => rw [mapIndex_of_lookup_none h]; decide
  | some c =>
    rw [mapIndex_of_lookup_some h]
    exact coefficients_bounds (op, c) (mem_of_lookup h)

/-- C13: for every base, each of `VALUES`, `APPEND`, `SETITEM` and `REVERSEITEMS` keys a row
of coefficient 8192 and is priced `8192 × base`, in signed 64-bit arithmetic and exactly
when the product fits in `int64`; and `8192 = 2^13` is the largest coefficient of the
table: no opcode has a coefficient greater than 8192. -/
theorem Opcode_class_8192 (base : Int) :
    (∀ op ∈ [opcode.VALUES, opcode.APPEND, opcode.SETITEM, opcode.REVERSEITEMS],
      coefficients.lookup op = some 8192 ∧ Opcode base [op] = mul64 8192 base ∧
      (inInt64 (8192 * base) → Opcode base [op] = 8192 * base)) ∧
    (8192 : Int) = 2 ^ 13 ∧
    (∀ (op : opcode.Opcode) (c : Int), coefficients.lookup op = some c → c ≤ 8192) := by
  have hl : ∀ op ∈ [opcode.VALUES, opcode.APPEND, opcode.SETITEM, opcode.REVERSEITEMS],
      coefficients.lookup op = some 8192 := by decide
  refine ⟨fun op hop => ⟨hl op hop,
    Opcode_of_mapIndex base op 8192 (mapIndex_of_lookup_some (hl op hop))⟩, by norm_num, ?_⟩
  intro op c h
  exact (coefficients_bounds (op, c) (mem_of_lookup h)).2

theorem Opcode_class_8192_witness :
    Opcode 30 [opcode.REVERSEITEMS] = 8192 * 30 ∧ (2048 : Int) ≤ 8192 :=
  ⟨((Opcode_class_8192 30).1 opcode.REVERSEITEMS (by decide)).2.2 (by decide),
   (Opcode_class_8192 30).2.2 opcode.SQRT 2048 (by decide)⟩

/-! ## Additivity and monotonicity -/

theorem toInt64_add (a b : Int) : toInt64 (toInt64 a + toInt64 b) = toInt64 (a + b) :=
  toInt64_congr ((toInt64_modEq a).add (toInt64_modEq b))

theorem toInt64_idem (x : Int) : toInt64 (toInt64 x) = toInt64 x :=
  toInt64_of_inInt64 (toInt64_inInt64 x)

theorem Opcode_inInt64 (base : Int) (opcodes : List opcode.Opcode) :
    inInt64 (Opcode base opcodes) := by
  rw [Opcode_eq_toInt64]
  exact toInt64_inInt64 _

theorem Opcode_append (base : Int) (xs ys : List opcode.Opcode) :
    Opcode base (xs ++ ys) = add64 (Opcode base xs) (Opcode base ys) := by
  rw [Opcode_eq_toInt64, Opcode_eq_toInt64, Opcode_eq_toInt64, add64, toInt64_add,
    coefficientSum_append, add_mul]

theorem Opcode_nil (base : Int) : Opcode base [] = 0 := by
  rw [Opcode_eq_toInt64, coefficientSum_nil, zero_mul]
  decide

theorem sum_map_Opcode_singleton (base : Int) (ops : List opcode.Opcode) :
    (ops.map (fun op => Opcode base [op])).sum ≡ coefficientSum ops * base [ZMOD 2 ^ 64] := by
  induction ops with
  | nil => simp [coefficientSum]
  | cons op rest ih =>
    rw [List.map_cons, List.sum_cons, coefficientSum_cons, add_mul, Opcode_singleton, mul64]
    exact (toInt64_modEq _).add ih

theorem foldl_add64_inInt64 (cs : List Int) (acc : Int) (h : inInt64 acc) :
    inInt64 (cs.foldl add64 acc) := by
  induction cs generalizing acc with
  | nil => exact h
  | cons c rest ih => exact ih _ (toInt64_inInt64 _)

/-- C14: the price of a sequence is the sum of the prices of its instructions, in signed
64-bit arithmetic. For every base and all opcode sequences, the price of a concatenation
is the `int64` sum of the two prices, the price of the empty sequence is 0, and the price
of a sequence is the `int64` sum of the prices of its opcodes taken one by one. -/
theorem Opcode_additive (base : Int) (xs ys : List opcode.Opcode) :
    Opcode base (xs ++ ys) = add64 (Opcode base xs) (Opcode base ys) ∧
    Opcode base [] = 0 ∧
    Opcode base xs = (xs.map (fun op => Opcode base [op])).foldl add64 0 ∧
    (inInt64 (Opcode base xs + Opcode base ys) →
      Opcode base (xs ++ ys) = Opcode base xs + Opcode base ys) := by
  refine ⟨Opcode_append base xs ys, Opcode_nil base, ?_, fun hfit => ?_⟩
  · have hin : inInt64 ((xs.map (fun op => Opcode base [op])).foldl add64 0) :=
      foldl_add64_inInt64 _ 0 (by decide)
    rw [← toInt64_of_inInt64 hin, foldl_add64_sum, Opcode_eq_toInt64]
    exact toInt64_congr (sum_map_Opcode_singleton base xs).symm
  · rw [Opcode_append, add64, toInt64_of_inInt64 hfit]

theorem Opcode_additive_witness :
    inInt64 (Opcode 30 [opcode.PUSH2, opcode.PUSH3] + Opcode 30 [opcode.ADD]) ∧
    Opcode 30 ([opcode.PUSH2, opcode.PUSH3] ++ [opcode.ADD])
      = Opcode 30 [opcode.PUSH2, opcode.PUSH3] + Opcode 30 [opcode.ADD] :=
  ⟨by decide, (Opcode_additive 30 [opcode.PUSH2, opcode.PUSH3] [opcode.ADD]).2.2.2 (by decide)⟩

theorem coefficientSum_nonneg (ops : List opcode.Opcode) : 0 ≤ coefficientSum ops := by
  induction ops with
  | nil => exact le_refl _
  | cons op rest ih =>
    rw [coefficientSum_cons]
    exact add_nonneg (mapIndex_bounds op).1 ih

theorem coefficientSum_le (ops : List opcode.Opcode) :
    coefficientSum ops ≤ 8192 * ops.length := by
  induction ops with
  | nil => exact le_refl _
  | cons op rest ih =>
    rw [coefficientSum_cons, List.length_cons]
    have h := (mapIndex_bounds op).2
    push_cast
    linarith

theorem inInt64_of_nonneg_le {x y : Int} (hx : 0 ≤ x) (hxy : x ≤ y) (hy : inInt64 y) :
    inInt64 x := by
  unfold inInt64 minInt64 maxInt64 at *
  omega

/-- C15: the accumulated price is non-decreasing along a script. For every base `≥ 0`,
every opcode sequence `s` whose exact price `base × Σ coefficient` fits in `int64`, and
every initial segment `p` of `s`, the price of `p` is at most the price of `s`. -/
theorem Opcode_mono (base : Int) (p s : List opcode.Opcode) (hbase : 0 ≤ base)
    (hfit : inInt64 (base * coefficientSum s)) (hp : p <+: s) :
    Opcode base p ≤ Opcode base s := by
  obtain ⟨t, rfl⟩ := hp
  have hsum : coefficientSum p ≤ coefficientSum (p ++ t) := by
    rw [coefficientSum_append]
    have := coefficientSum_nonneg t
    linarith
  have hle : coefficientSum p * base ≤ coefficientSum (p ++ t) * base :=
    mul_le_mul_of_nonneg_right hsum hbase
  have hfit2 : inInt64 (coefficientSum (p ++ t) * base) := by rwa [mul_comm]
  have hfit1 : inInt64 (coefficientSum p * base) :=
    inInt64_of_nonneg_le (mul_nonneg (coefficientSum_nonneg p) hbase) hle hfit2
  rw [Opcode_eq_toInt64, Opcode_eq_toInt64, toInt64_of_inInt64 hfit1,
    toInt64_of_inInt64 hfit2]
  exact hle

theorem Opcode_mono_witness :
    Opcode 30 [opcode.PUSH2, opcode.PUSH3]
      ≤ Opcode 30 [opcode.PUSH2, opcode.PUSH3, opcode.ADD, opcode.RET] :=
  Opcode_mono 30 [opcode.PUSH2, opcode.PUSH3]
    [opcode.PUSH2, opcode.PUSH3, opcode.ADD, opcode.RET] (by decide) (by decide)
    ⟨[opcode.ADD, opcode.RET], rfl⟩

/-- C16 (counterexample): at the non-negative `int64` base `2^62` the opcode `JMP`, of
coefficient 2, is priced `-2^63`: the multiplication wraps around and the returned
value is negative. -/
theorem Opcode_negative :
    inInt64 4611686018427387904 ∧ (0 : Int) ≤ 4611686018427387904 ∧
    Opcode 4611686018427387904 [opcode.JMP] = -9223372036854775808 ∧
    ¬ (0 ≤ Opcode 4611686018427387904 [opcode.JMP]) := by
  decide

/-- C16 (amended): for every non-negative base and every opcode sequence whose exact
price `base × Σ coefficient` fits in `int64`, the value returned by `Opcode` is that
exact price and is non-negative. -/
theorem Opcode_nonneg (base : Int) (ops : List opcode.Opcode) (hbase : 0 ≤ base)
    (hfit : inInt64 (base * coefficientSum ops)) :
    Opcode base ops = base * coefficientSum ops ∧ 0 ≤ Opcode base ops := by
  have h : Opcode base ops = base * coefficientSum ops := by
    rw [Opcode_eq_toInt64, mul_comm, toInt64_of_inInt64 hfit]
  exact ⟨h, h ▸ mul_nonneg hbase (coefficientSum_nonneg ops)⟩

theorem Opcode_nonneg_witness :
    Opcode 30 [opcode.JMP, opcode.SETITEM] = 30 * coefficientSum [opcode.JMP, opcode.SETITEM] ∧
    0 ≤ Opcode 30 [opcode.JMP, opcode.SETITEM] :=
  Opcode_nonneg 30 [opcode.JMP, opcode.SETITEM] (by decide) (by decide)

/-! ## Overflow -/

theorem foldl_add64_map_inInt64 {α : Type} (f : α → Int) (l : List α) (acc : Int)
    (h : inInt64 acc) : inInt64 (l.foldl (fun result x => add64 result (f x)) acc) := by
  induction l generalizing acc with
  | nil => exact h
  | cons x rest ih => exact ih _ (toInt64_inInt64 _)

theorem accumulated_eq_toInt64 (ops : List opcode.Opcode) :
    accumulated ops = toInt64 (coefficientSum ops) := by
  have hin : inInt64 (accumulated ops) := foldl_add64_map_inInt64 _ ops 0 (by decide)
  rw [← toInt64_of_inInt64 hin]
  unfold accumulated coefficientSum
  rw [foldl_add64, zero_add]

theorem Opcode_eq_mul64_accumulated (base : Int) (ops : List opcode.Opcode) :
    Opcode base ops = mul64 (accumulated ops) base := rfl

theorem accumulationExact_of_le (ops : List opcode.Opcode) (acc : Int) (hacc : 0 ≤ acc)
    (h : acc + coefficientSum ops ≤ maxInt64) : accumulationExact acc ops := by
  induction ops generalizing acc with
  | nil => trivial
  | cons op rest ih =>
    rw [coefficientSum_cons] at h
    have hv := (mapIndex_bounds op).1
    have hr := coefficientSum_nonneg rest
    have hin : inInt64 (acc + mapIndex coefficients op) := by
      unfold inInt64 minInt64
      unfold maxInt64 at *
      constructor <;> omega
    refine ⟨hin, ?_⟩
    rw [add64, toInt64_of_inInt64 hin]
    exact ih _ (by omega) (by omega)

theorem le_of_accumulationExact (ops : List opcode.Opcode) (acc : Int)
    (h : accumulationExact acc ops) (hacc : acc ≤ maxInt64) :
    acc + coefficientSum ops ≤ maxInt64 := by
  induction ops generalizing acc with
  | nil => simpa [coefficientSum] using hacc
  | cons op rest ih =>
    obtain ⟨hin, hrest⟩ := h
    rw [add64, toInt64_of_inInt64 hin] at hrest
    rw [coefficientSum_cons, ← add_assoc]
    exact ih _ hrest hin.2

theorem coefficientSum_replicate (n : Nat) (op : opcode.Opcode) :
    coefficientSum (List.replicate n op) = mapIndex coefficients op * n := by
  induction n with
  | zero => simp [coefficientSum]
  | succ n ih =>
    rw [List.replicate_succ, coefficientSum_cons, ih]
    push_cast
    ring

/-- Over the unbounded lists of the model the accumulation can wrap at base 0, where the
bound `base × 8192 × n ≤ 2^63 - 1` says nothing about `n`: for `2^50` opcodes `SETITEM` the
exact sum is `2^63` and the loop leaves `-2^63` in `result`. Such a sequence fills a
pebibyte, more than a slice can hold. -/
theorem accumulation_wraps_at_base_zero :
    (0 : Int) ≤ 0 ∧
    (0 : Int) * 8192 * ((List.replicate 1125899906842624 opcode.SETITEM).length : Int)
      ≤ 2 ^ 63 - 1 ∧
    ¬ accumulationExact 0 (List.replicate 1125899906842624 opcode.SETITEM) ∧
    coefficientSum (List.replicate 1125899906842624 opcode.SETITEM) = 2 ^ 63 ∧
    accumulated (List.replicate 1125899906842624 opcode.SETITEM) = -(2 ^ 63) := by
  have hs : coefficientSum (List.replicate 1125899906842624 opcode.SETITEM) = 2 ^ 63 := by
    rw [coefficientSum_replicate]
    have : mapIndex coefficients opcode.SETITEM = 8192 := by decide
    rw [this]
    norm_num
  refine ⟨le_refl _, by norm_num, ?_, hs, ?_⟩
  · intro h
    have h2 := le_of_accumulationExact _ 0 h (by decide)
    rw [hs] at h2
    unfold maxInt64 at h2
    omega
  · rw [accumulated_eq_toInt64, hs]
    decide

/-- For every base `≥ 0` and every sequence of `n` opcodes with
`base × 8192 × n ≤ 2^63 - 1`, the final multiplication of `Opcode` does not wrap, the
result is the exact integer `base × Σ coefficient`, and `0 ≤ Opcode ≤ 8192 × n × base`;
the accumulation does not wrap either when `base ≥ 1`, or when `8192 × n ≤ 2^63 - 1`. -/
theorem Opcode_overflow_free (base : Int) (ops : List opcode.Opcode) (hbase : 0 ≤ base)
    (hbound : base * 8192 * (ops.length : Int) ≤ 2 ^ 63 - 1) :
    inInt64 (accumulated ops * base) ∧
    Opcode base ops = base * coefficientSum ops ∧
    0 ≤ Opcode base ops ∧ Opcode base ops ≤ 8192 * (ops.length : Int) * base ∧
    (1 ≤ base ∨ 8192 * (ops.length : Int) ≤ 2 ^ 63 - 1 →
      accumulationExact 0 ops ∧ accumulated ops = coefficientSum ops) := by
  have hs0 := coefficientSum_nonneg ops
  have hs1 := coefficientSum_le ops
  have hn : (0 : Int) ≤ 8192 * (ops.length : Int) := by positivity
  have hle : coefficientSum ops * base ≤ 8192 * (ops.length : Int) * base :=
    mul_le_mul_of_nonneg_right hs1 hbase
  have hpos : 0 ≤ coefficientSum ops * base := mul_nonneg hs0 hbase
  have hfit : inInt64 (coefficientSum ops * base) := by
    unfold inInt64 minInt64 maxInt64
    constructor
    · linarith
    · linarith
  have hacc : 1 ≤ base ∨ 8192 * (ops.length : Int) ≤ 2 ^ 63 - 1 →
      accumulationExact 0 ops ∧ accumulated ops = coefficientSum ops := by
    intro hcase
    have hsum : coefficientSum ops ≤ maxInt64 := by
      unfold maxInt64
      rcases hcase with h1 | h2
      · have : 8192 * (ops.length : Int) ≤ base * (8192 * (ops.length : Int)) :=
          le_mul_of_one_le_left hn h1
        linarith
      · linarith
    refine ⟨accumulationExact_of_le ops 0 (le_refl _) (by rwa [zero_add]), ?_⟩
    rw [accumulated_eq_toInt64]
    exact toInt64_of_inInt64 ⟨by unfold minInt64; linarith, hsum⟩
  have hval : Opcode base ops = base * coefficientSum ops := by
    rw [Opcode_eq_toInt64, toInt64_of_inInt64 hfit, mul_comm]
  refine ⟨?_, hval, ?_, ?_, hacc⟩
  · rcases eq_or_lt_of_le hbase with h0 | h0
    · rw [← h0, mul_zero]
      decide
    · rw [(hacc (Or.inl (by omega))).2]
      exact hfit
  · rw [hval, mul_comm]
    exact hpos
  · rw [hval, mul_comm]
    exact hle

/-- C17: overflow-freedom bound. For every base `≥ 0` and every sequence of `n` opcodes
that a slice can hold (`n < 2^50`) with `base × 8192 × n ≤ 2^63 - 1`, neither the `int64`
accumulation nor the final `int64` multiplication of `Opcode` wraps, so the result is the
exact integer `base × Σ coefficient` and satisfies `0 ≤ Opcode ≤ 8192 × n × base`. -/
theorem Opcode_no_wrap (base : Int) (ops : List opcode.Opcode) (hbase : 0 ≤ base)
    (hlen : ops.length < 2 ^ 50)
    (hbound : base * 8192 * (ops.length : Int) ≤ 2 ^ 63 - 1) :
    accumulationExact 0 ops ∧ accumulated ops = coefficientSum ops ∧
    inInt64 (accumulated ops * base) ∧
    Opcode base ops = mul64 (accumulated ops) base ∧
    Opcode base ops = base * coefficientSum ops ∧
    0 ≤ Opcode base ops ∧ Opcode base ops ≤ 8192 * (ops.length : Int) * base := by
  have hn : 8192 * (ops.length : Int) ≤ 2 ^ 63 - 1 := by
    have h : (ops.length : Int) < 2 ^ 50 := by exact_mod_cast hlen
    omega
  obtain ⟨hmul, hval, h0, hle, hacc⟩ := Opcode_overflow_free base ops hbase hbound
  obtain ⟨hexact, hsum⟩ := hacc (Or.inr hn)
  exact ⟨hexact, hsum, hmul, Opcode_eq_mul64_accumulated base ops, hval, h0, hle⟩

theorem Opcode_no_wrap_witness :
    accumulationExact 0 [opcode.SETITEM, opcode.PUSH1, opcode.RET] ∧
    accumulated [opcode.SETITEM, opcode.PUSH1, opcode.RET]
      = coefficientSum [opcode.SETITEM, opcode.PUSH1, opcode.RET] ∧
    inInt64 (accumulated [opcode.SETITEM, opcode.PUSH1, opcode.RET] * 30) ∧
    Opcode 30 [opcode.SETITEM, opcode.PUSH1, opcode.RET]
      = mul64 (accumulated [opcode.SETITEM, opcode.PUSH1, opcode.RET]) 30 ∧
    Opcode 30 [opcode.SETITEM, opcode.PUSH1, opcode.RET]
      = 30 * coefficientSum [opcode.SETITEM, opcode.PUSH1, opcode.RET] ∧
    0 ≤ Opcode 30 [opcode.SETITEM, opcode.PUSH1, opcode.RET] ∧
    Opcode 30 [opcode.SETITEM, opcode.PUSH1, opcode.RET]
      ≤ 8192 * ([opcode.SETITEM, opcode.PUSH1, opcode.RET].length : Int) * 30 :=
  Opcode_no_wrap 30 [opcode.SETITEM, opcode.PUSH1, opcode.RET] (by decide) (by decide)
    (by decide)

/-! ## Free instructions, order and linearity -/

theorem mapIndex_eq_zero_iff (op : opcode.Opcode) :
    mapIndex coefficients op = 0 ↔ op ∈ freeOpcodes ∨ coefficients.lookup op = none := by
  constructor
  · intro h
    cases hl : coefficients.lookup op with
    | none => exact Or.inr rfl
    | some c =>
      rw [mapIndex_of_lookup_some hl] at h
      rcases coefficients_rows (op, c) (mem_of_lookup hl) with h0 | ⟨_, k, _, hc⟩
      · exact Or.inl h0.2
      · exact absurd (hc.symm.trans h) (pow_ne_zero k (by norm_num))
  · rintro (h | h)
    · exact mapIndex_freeOpcodes op h
    · exact mapIndex_of_lookup_none h

/-- C18: characterisation of free instructions. For every base with `0 < base < 2^50` and
every single opcode, the price is 0 if and only if the opcode is `ABORT`, `RET` or
`SYSCALL` or keys no row of the table; every other opcode of the table has a coefficient
of at least 1 and is priced at least `base`. -/
theorem Opcode_eq_zero_iff (base : Int) (op : opcode.Opcode) (hpos : 0 < base)
    (hlt : base < 2 ^ 50) :
    (Opcode base [op] = 0 ↔
      op = opcode.ABORT ∨ op = opcode.RET ∨ op = opcode.SYSCALL ∨
        coefficients.lookup op = none) ∧
    (∀ c : Int, coefficients.lookup op = some c →
      ¬ (op = opcode.ABORT ∨ op = opcode.RET ∨ op = opcode.SYSCALL) →
      1 ≤ c ∧ base ≤ Opcode base [op]) := by
  have hb := mapIndex_bounds op
  have hle : mapIndex coefficients op * base ≤ 8192 * base :=
    mul_le_mul_of_nonneg_right hb.2 (le_of_lt hpos)
  have hge : 0 ≤ mapIndex coefficients op * base := mul_nonneg hb.1 (le_of_lt hpos)
  have hfit : inInt64 (mapIndex coefficients op * base) := by
    unfold inInt64 minInt64 maxInt64
    constructor
    · linarith
    · linarith
  have hval : Opcode base [op] = mapIndex coefficients op * base := by
    rw [Opcode_singleton, mul64, toInt64_of_inInt64 hfit]
  have hfree : op ∈ freeOpcodes ↔
      op = opcode.ABORT ∨ op = opcode.RET ∨ op = opcode.SYSCALL := by
    simp [freeOpcodes]
  constructor
  · rw [hval, mul_eq_zero, mapIndex_eq_zero_iff, hfree]
    constructor
    · rintro (h | h)
      · rcases h with (h | h | h) | h
        · exact Or.inl h
        · exact Or.inr (Or.inl h)
        · exact Or.inr (Or.inr (Or.inl h))
        · exact Or.inr (Or.inr (Or.inr h))
      · omega
    · rintro (h | h | h | h)
      · exact Or.inl (Or.inl (Or.inl h))
      · exact Or.inl (Or.inl (Or.inr (Or.inl h)))
      · exact Or.inl (Or.inl (Or.inr (Or.inr h)))
      · exact Or.inl (Or.inr h)
  · intro c hc hnot
    have hm : mapIndex coefficients op = c := mapIndex_of_lookup_some hc
    have hne : mapIndex coefficients op ≠ 0 := by
      intro h0
      rcases (mapIndex_eq_zero_iff op).1 h0 with h | h
      · exact hnot (hfree.1 h)
      · rw [hc] at h
        exact absurd h (by simp)
    have h1 : 1 ≤ mapIndex coefficients op := by omega
    refine ⟨hm ▸ h1, ?_⟩
    rw [hval]
    exact le_mul_of_one_le_left (le_of_lt hpos) h1

theorem Opcode_eq_zero_iff_witness :
    Opcode 30 [opcode.RET] = 0 ∧ (1 : Int) ≤ 8 ∧ (30 : Int) ≤ Opcode 30 [opcode.ADD] :=
  ⟨(Opcode_eq_zero_iff 30 opcode.RET (by decide) (by decide)).1.2 (Or.inr (Or.inl rfl)),
   (Opcode_eq_zero_iff 30 opcode.ADD (by decide) (by decide)).2 8 (by decide) (by decide)⟩

/-- C19: the price is independent of instruction order. For every base and every two
opcode sequences that are permutations of each other, `Opcode` returns the same price. -/
theorem Opcode_perm (base : Int) (xs ys : List opcode.Opcode) (h : List.Perm xs ys) :
    Opcode base xs = Opcode base ys := by
  have hs : coefficientSum xs = coefficientSum ys := (h.map _).sum_eq
  rw [Opcode_eq_toInt64, Opcode_eq_toInt64, hs]

theorem Opcode_perm_witness :
    Opcode 30 [opcode.PUSH2, opcode.ADD, opcode.SETITEM]
      = Opcode 30 [opcode.SETITEM, opcode.PUSH2, opcode.ADD] :=
  Opcode_perm 30 [opcode.PUSH2, opcode.ADD, opcode.SETITEM]
    [opcode.SETITEM, opcode.PUSH2, opcode.ADD] (by decide)

/-- C20: the price is linear in the base, in signed 64-bit arithmetic. For all `a`, `b`,
`k` and every opcode sequence, the price at `a + b` is the `int64` sum of the prices at `a`
and at `b`, the price at `k × a` is the `int64` product of `k` and the price at `a`, the
price at base 0 is 0, and the price at base 1 is the sum of the coefficients that the
loop accumulates, the exact sum when it fits in `int64`. -/
theorem Opcode_linear (a b k : Int) (ops : List opcode.Opcode) :
    Opcode (add64 a b) ops = add64 (Opcode a ops) (Opcode b ops) ∧
    Opcode (a + b) ops = add64 (Opcode a ops) (Opcode b ops) ∧
    Opcode (mul64 k a) ops = mul64 k (Opcode a ops) ∧
    Opcode (k * a) ops = mul64 k (Opcode a ops) ∧
    Opcode 0 ops = 0 ∧
    Opcode 1 ops = accumulated ops ∧
    (inInt64 (coefficientSum ops) → Opcode 1 ops = coefficientSum ops) := by
  have hadd : Opcode (a + b) ops = add64 (Opcode a ops) (Opcode b ops) := by
    rw [Opcode_eq_toInt64, Opcode_eq_toInt64, Opcode_eq_toInt64, add64, toInt64_add, mul_add]
  have hmul : Opcode (k * a) ops = mul64 k (Opcode a ops) := by
    rw [Opcode_eq_toInt64, Opcode_eq_toInt64, mul64, toInt64_mul_right]
    congr 1
    ring
  have hone : Opcode 1 ops = toInt64 (coefficientSum ops) := by
    rw [Opcode_eq_toInt64, mul_one]
  refine ⟨?_, hadd, ?_, hmul, ?_, ?_, fun hfit => ?_⟩
  · rw [← hadd, Opcode_eq_toInt64, Opcode_eq_toInt64, add64, toInt64_mul_right]
  · rw [← hmul, Opcode_eq_toInt64, Opcode_eq_toInt64, mul64, toInt64_mul_right]
  · rw [Opcode_eq_toInt64, mul_zero]
    decide
  · rw [hone, accumulated_eq_toInt64]
  · rw [hone, toInt64_of_inInt64 hfit]

theorem Opcode_linear_witness :
    inInt64 (coefficientSum [opcode.PUSH2, opcode.ADD]) ∧
    Opcode 1 [opcode.PUSH2, opcode.ADD] = coefficientSum [opcode.PUSH2, opcode.ADD] :=
  ⟨by decide, (Opcode_linear 2 3 5 [opcode.PUSH2, opcode.ADD]).2.2.2.2.2.2 (by decide)⟩

/-! ## Short and long forms -/

/-- C21: the long-offset form of a control-flow instruction costs the same as its short
form. For every base and each of the pairs `JMP`/`JMPL`, `JMPIF`/`JMPIFL`,
`JMPIFNOT`/`JMPIFNOTL`, `JMPEQ`/`JMPEQL`, `JMPNE`/`JMPNEL`, `JMPGT`/`JMPGTL`, `JMPGE`/`JMPGEL`,
`JMPLT`/`JMPLTL`, `JMPLE`/`JMPLEL`, `CALL`/`CALLL`, `TRY`/`TRYL` and `ENDTRY`/`ENDTRYL`, both
opcodes key a row of the table, the two rows store the same coefficient, and `Opcode`
returns the same price for the two. -/
theorem Opcode_short_eq_long (base : Int) :
    ∀ p ∈ shortLongPairs,
      (coefficients.lookup p.1).isSome ∧ coefficients.lookup p.1 = coefficients.lookup p.2 ∧
      Opcode base [p.1] = Opcode base [p.2] := by
  have hl : ∀ p ∈ shortLongPairs,
      (coefficients.lookup p.1).isSome ∧ coefficients.lookup p.1 = coefficients.lookup p.2 ∧
      mapIndex coefficients p.1 = mapIndex coefficients p.2 := by decide
  intro p hp
  refine ⟨(hl p hp).1, (hl p hp).2.1, ?_⟩
  rw [Opcode_singleton, Opcode_singleton, (hl p hp).2.2]

theorem Opcode_short_eq_long_witness :
    Opcode 30 [opcode.JMPIFNOT] = Opcode 30 [opcode.JMPIFNOTL] ∧
    Opcode 30 [opcode.CALL] = Opcode 30 [opcode.CALLL] ∧
    Opcode 30 [opcode.ENDTRY] = Opcode 30 [opcode.ENDTRYL] :=
  ⟨(Opcode_short_eq_long 30 (opcode.JMPIFNOT, opcode.JMPIFNOTL) (by decide)).2.2,
   (Opcode_short_eq_long 30 (opcode.CALL, opcode.CALLL) (by decide)).2.2,
   (Opcode_short_eq_long 30 (opcode.ENDTRY, opcode.ENDTRYL) (by decide)).2.2⟩

end fee
